import Mathlib

/-!
Verification of the aapt2 resource-compiler middle-end against its specification.

The definitions below are a shallow embedding of the C++ sources:
ResourceUtils.cpp (reference, color, boolean, flag and null/empty parsing),
ResourceParser.cpp (the accepted-type mask computation for item elements),
XmlActionExecutor.cpp (tag-dispatch execution), together with models of the
ResourceTable symbol-state operation and of the TableMerger operations whose
implementation files are not among the provided sources (those models are
written from the specification and are marked as such in their doc comments).

Machine integers are modelled as Nat; the 32-bit resource data words never
overflow Nat arithmetic because every operation used here (bitwise or, shift
by fixed amounts of nibbles below 2^32) stays below 2^32.
-/

namespace Aapt

/-! ## String utilities (util::trimWhitespace, util::tokenize)

Modelled from the spec: the implementation of util/Util.cpp is not among the
provided sources.  `trimWhitespace` removes leading and trailing whitespace
(the C locale space class), `tokenize` splits a string at a separator
character, keeping empty pieces. -/

/-- The C locale whitespace characters: space, tab, newline, vertical tab,
form feed, carriage return. -/
def isSpaceChar (c : Char) : Bool :=
  c = ' ' || c = '\t' || c = '\n' || c = Char.ofNat 11 || c = Char.ofNat 12 || c = '\r'

/-- Modelled from the spec: util::trimWhitespace removes leading and trailing
whitespace from a string (src/util/Util.cpp is not among the sources). -/
def trimWhitespace (s : String) : String :=
  ⟨((s.data.dropWhile isSpaceChar).reverse.dropWhile isSpaceChar).reverse⟩

/-- The character loop of tokenize: a separator ends the current piece,
any other character joins it; the final piece is always emitted. -/
def splitChars (sep : Char) : List Char → List Char → List String
  | [], seg => [⟨seg⟩]
  | c :: cs, seg =>
    if c = sep then (⟨seg⟩ : String) :: splitChars sep cs []
    else splitChars sep cs (seg ++ [c])

/-- Modelled from the spec: util::tokenize splits a string at a separator
character, keeping empty pieces (src/util/Util.cpp is not among the
sources). -/
def tokenize (s : String) (sep : Char) : List String :=
  splitChars sep s.data []

/-! ## Resource data model -/

/-- Resource kinds (Resource.h is not among the provided sources; the kinds
are modelled from the spec, which names string, drawable, attr, style, layout,
xml, id and the typed shorthand elements). -/
inductive ResourceType where
  | kAnim
  | kArray
  | kAttr
  | kBool
  | kColor
  | kDimen
  | kDrawable
  | kFraction
  | kId
  | kInteger
  | kLayout
  | kMenu
  | kMipmap
  | kPlurals
  | kRaw
  | kString
  | kStyle
  | kStyleable
  | kXml
  deriving DecidableEq, Repr

/-- Modelled from the spec: parseResourceType maps a type token to a resource
kind (Resource.cpp is not among the provided sources). -/
def parseResourceType (s : String) : Option ResourceType :=
  if s = "anim" then some .kAnim
  else if s = "array" then some .kArray
  else if s = "attr" then some .kAttr
  else if s = "bool" then some .kBool
  else if s = "color" then some .kColor
  else if s = "dimen" then some .kDimen
  else if s = "drawable" then some .kDrawable
  else if s = "fraction" then some .kFraction
  else if s = "id" then some .kId
  else if s = "integer" then some .kInteger
  else if s = "layout" then some .kLayout
  else if s = "menu" then some .kMenu
  else if s = "mipmap" then some .kMipmap
  else if s = "plurals" then some .kPlurals
  else if s = "raw" then some .kRaw
  else if s = "string" then some .kString
  else if s = "style" then some .kStyle
  else if s = "styleable" then some .kStyleable
  else if s = "xml" then some .kXml
  else none

/-- A (package, type, entry) resource name triple. -/
structure ResourceName where
  package : String
  type : ResourceType
  entry : String
  deriving DecidableEq, Repr

/-- Reference kind: resource reference (the at sign) or attribute reference
(the question mark), mirroring Reference::Type in ResourceValues.h. -/
inductive RefKind where
  | kResource
  | kAttribute
  deriving DecidableEq, Repr

/-- A reference value, mirroring the fields of aapt::Reference that the
parsing functions set. -/
structure Reference where
  name : ResourceName
  privateReference : Bool
  kind : RefKind
  deriving DecidableEq, Repr

/-- A 32-bit typed value, mirroring android::Res_value (dataType, data). -/
structure BinPrim where
  dataType : Nat
  data : Nat
  deriving DecidableEq, Repr

/-- An atomic Item as produced by the value parser: a reference or a binary
primitive (the string fallbacks are handled by the caller). -/
inductive Item where
  | ref (r : Reference)
  | prim (p : BinPrim)
  deriving DecidableEq, Repr

/-! ## Constants from the Android framework headers

Values of android::Res_value dataType tags and android::ResTable_map
accepted-type mask bits, as declared in the androidfw ResourceTypes.h header
the sources include. -/

namespace ResValue

def TYPE_NULL : Nat := 0x00
def TYPE_REFERENCE : Nat := 0x01
def TYPE_ATTRIBUTE : Nat := 0x02
def TYPE_STRING : Nat := 0x03
def TYPE_FLOAT : Nat := 0x04
def TYPE_DIMENSION : Nat := 0x05
def TYPE_FRACTION : Nat := 0x06
def TYPE_DYNAMIC_REFERENCE : Nat := 0x07
def TYPE_INT_DEC : Nat := 0x10
def TYPE_INT_HEX : Nat := 0x11
def TYPE_INT_BOOLEAN : Nat := 0x12
def TYPE_INT_COLOR_ARGB8 : Nat := 0x1c
def TYPE_INT_COLOR_RGB8 : Nat := 0x1d
def TYPE_INT_COLOR_ARGB4 : Nat := 0x1e
def TYPE_INT_COLOR_RGB4 : Nat := 0x1f
def DATA_NULL_EMPTY : Nat := 1

end ResValue

namespace ResTableMap

def TYPE_REFERENCE : Nat := 1 <<< 0
def TYPE_STRING : Nat := 1 <<< 1
def TYPE_INTEGER : Nat := 1 <<< 2
def TYPE_BOOLEAN : Nat := 1 <<< 3
def TYPE_COLOR : Nat := 1 <<< 4
def TYPE_FLOAT : Nat := 1 <<< 5
def TYPE_DIMENSION : Nat := 1 <<< 6
def TYPE_FRACTION : Nat := 1 <<< 7
def TYPE_ANY : Nat := 0xFFFF
def TYPE_ENUM : Nat := 1 <<< 16
def TYPE_FLAGS : Nat := 1 <<< 17

end ResTableMap

/-! ## ResourceUtils: null/empty sentinels (src/unnamed/part_004:318-333) -/

/-- Embeds ResourceUtils::tryParseNullOrEmpty: the trimmed token at-null maps
to a TYPE_REFERENCE word with data 0 (a TYPE_NULL word with data 0 would be an
error at runtime), at-empty maps to TYPE_NULL with DATA_NULL_EMPTY. -/
def tryParseNullOrEmpty (str : String) : Option BinPrim :=
  if trimWhitespace str = "@null" then some ⟨ResValue.TYPE_REFERENCE, 0⟩
  else if trimWhitespace str = "@empty" then
    some ⟨ResValue.TYPE_NULL, ResValue.DATA_NULL_EMPTY⟩
  else none

/-! ## ResourceUtils: color parsing (src/unnamed/part_004:385-450) -/

/-- Embeds the static parseHex helper: a hex digit maps to its value, any
other character sets the error flag (modelled as none). -/
def parseHex (c : Char) : Option Nat :=
  if '0' ≤ c ∧ c ≤ '9' then some (c.toNat - '0'.toNat)
  else if 'a' ≤ c ∧ c ≤ 'f' then some (c.toNat - 'a'.toNat + 0xa)
  else if 'A' ≤ c ∧ c ≤ 'F' then some (c.toNat - 'A'.toNat + 0xa)
  else none

/-- A hexadecimal digit: the character classes accepted by the parseHex
helper, stated independently as three character ranges. -/
def isHexDigitChar (c : Char) : Bool :=
  decide (('0' ≤ c ∧ c ≤ '9') ∨ ('a' ≤ c ∧ c ≤ 'f') ∨ ('A' ≤ c ∧ c ≤ 'F'))

/-- The length dispatch of ResourceUtils::tryParseColor on the digits after
the hash character: 3, 4, 6 or 8 hex digits, assembled by nibble shifts with
alpha defaulting to 0xff when omitted. -/
def colorFromDigits : List Char → Option BinPrim
  | [r, g, b] => do
    let vr ← parseHex r
    let vg ← parseHex g
    let vb ← parseHex b
    some ⟨ResValue.TYPE_INT_COLOR_RGB4,
      0xff000000 ||| (vr <<< 20) ||| (vr <<< 16) ||| (vg <<< 12) ||| (vg <<< 8) |||
        (vb <<< 4) ||| vb⟩
  | [a, r, g, b] => do
    let va ← parseHex a
    let vr ← parseHex r
    let vg ← parseHex g
    let vb ← parseHex b
    some ⟨ResValue.TYPE_INT_COLOR_ARGB4,
      (va <<< 28) ||| (va <<< 24) ||| (vr <<< 20) ||| (vr <<< 16) ||| (vg <<< 12) |||
        (vg <<< 8) ||| (vb <<< 4) ||| vb⟩
  | [r1, r2, g1, g2, b1, b2] => do
    let vr1 ← parseHex r1
    let vr2 ← parseHex r2
    let vg1 ← parseHex g1
    let vg2 ← parseHex g2
    let vb1 ← parseHex b1
    let vb2 ← parseHex b2
    some ⟨ResValue.TYPE_INT_COLOR_RGB8,
      0xff000000 ||| (vr1 <<< 20) ||| (vr2 <<< 16) ||| (vg1 <<< 12) ||| (vg2 <<< 8) |||
        (vb1 <<< 4) ||| vb2⟩
  | [a1, a2, r1, r2, g1, g2, b1, b2] => do
    let va1 ← parseHex a1
    let va2 ← parseHex a2
    let vr1 ← parseHex r1
    let vr2 ← parseHex r2
    let vg1 ← parseHex g1
    let vg2 ← parseHex g2
    let vb1 ← parseHex b1
    let vb2 ← parseHex b2
    some ⟨ResValue.TYPE_INT_COLOR_ARGB8,
      (va1 <<< 28) ||| (va2 <<< 24) ||| (vr1 <<< 20) ||| (vr2 <<< 16) ||| (vg1 <<< 12) |||
        (vg2 <<< 8) ||| (vb1 <<< 4) ||| vb2⟩
  | _ => none

/-- Embeds ResourceUtils::tryParseColor: trim whitespace, require a leading
hash character, then dispatch on the number of hex digits. -/
def tryParseColor (str : String) : Option BinPrim :=
  match (trimWhitespace str).data with
  | [] => none
  | c :: ds => if c = '#' then colorFromDigits ds else none

/-! ## ResourceUtils: boolean parsing (src/unnamed/part_004:452-460, 504-517) -/

/-- Embeds ResourceUtils::parseBool: exactly the spellings true, TRUE, True
and false, FALSE, False are recognised, after trimming. -/
def parseBool (str : String) : Option Bool :=
  if trimWhitespace str = "true" ∨ trimWhitespace str = "TRUE" ∨
      trimWhitespace str = "True" then some true
  else if trimWhitespace str = "false" ∨ trimWhitespace str = "FALSE" ∨
      trimWhitespace str = "False" then some false
  else none

/-- Embeds ResourceUtils::tryParseBool: a recognised boolean becomes a
TYPE_INT_BOOLEAN word whose data is all ones for true, all zeros for false. -/
def tryParseBool (str : String) : Option BinPrim :=
  match parseBool str with
  | some true => some ⟨ResValue.TYPE_INT_BOOLEAN, 0xffffffff⟩
  | some false => some ⟨ResValue.TYPE_INT_BOOLEAN, 0⟩
  | none => none

/-! ## ResourceUtils: flag symbol parsing (src/unnamed/part_004:352-383) -/

/-- An enum or flag symbol of an Attribute: a symbol resource name together
with its numeric value, mirroring Attribute::Symbol. -/
structure AttrSymbol where
  name : ResourceName
  value : Nat
  deriving DecidableEq, Repr

/-- The inner lookup of tryParseFlagSymbol: the first symbol whose entry part
equals the trimmed token supplies its value. -/
def findFlagValue (symbols : List AttrSymbol) (tok : String) : Option Nat :=
  match symbols.find? (fun sym => sym.name.entry = tok) with
  | some sym => some sym.value
  | none => none

/-- The token loop of tryParseFlagSymbol: each token must match some symbol,
matched values are combined with bitwise or. -/
def flagLoop (symbols : List AttrSymbol) : List String → Nat → Option Nat
  | [], acc => some acc
  | p :: ps, acc =>
    match findFlagValue symbols (trimWhitespace p) with
    | some v => flagLoop symbols ps (acc ||| v)
    | none => none

/-- Embeds ResourceUtils::tryParseFlagSymbol: an all-whitespace string is the
valid flag 0; otherwise the pipe-separated tokens are trimmed, matched against
the entry part of the attribute's symbols and combined with bitwise or, and
any unmatched token fails the parse.  The result carries TYPE_INT_HEX. -/
def tryParseFlagSymbol (symbols : List AttrSymbol) (str : String) : Option BinPrim :=
  if trimWhitespace str = "" then some ⟨ResValue.TYPE_INT_HEX, 0⟩
  else
    match flagLoop symbols (tokenize str '|') 0 with
    | some acc => some ⟨ResValue.TYPE_INT_HEX, acc⟩
    | none => none

/-! ## ResourceUtils: resource names and references (src/unnamed/part_004:63-316) -/

/-- The character loop of ResourceUtils::extractResourceName: the first slash
while the type is still empty ends the type segment, the first colon while the
package is still empty ends the package segment, every other character joins
the current segment; the segment left at the end is the entry. -/
def extractLoop : List Char → List Char → String → String → Bool → Bool →
    String × String × String × Bool × Bool
  | [], seg, pkg, typ, hp, ht => (pkg, typ, ⟨seg⟩, hp, ht)
  | c :: cs, seg, pkg, typ, hp, ht =>
    if typ = "" ∧ c = '/' then extractLoop cs [] pkg ⟨seg⟩ hp true
    else if pkg = "" ∧ c = ':' then extractLoop cs [] ⟨seg⟩ typ true ht
    else extractLoop cs (seg ++ [c]) pkg typ hp ht

/-- Embeds ResourceUtils::extractResourceName: splits package:type/entry and
fails when a separator was seen but its segment is empty. -/
def extractResourceName (s : String) : Option (String × String × String) :=
  match extractLoop s.data [] "" "" false false with
  | (pkg, typ, entry, hp, ht) =>
    if (hp ∧ pkg = "") ∨ (ht ∧ typ = "") then none else some (pkg, typ, entry)

/-- Embeds ResourceUtils::parseResourceName: an optional leading star marks a
private name, the type token must parse to a resource kind and the entry must
be nonempty.  Returns the name and the private flag. -/
def parseResourceName (s : String) : Option (ResourceName × Bool) :=
  if s = "" then none
  else
    match (match s.data with
           | '*' :: cs => (true, cs)
           | cs => (false, cs) : Bool × List Char) with
    | (priv, cs) =>
      match extractResourceName ⟨cs⟩ with
      | none => none
      | some (pkg, typ, entry) =>
        match parseResourceType typ with
        | none => none
        | some ty =>
          if entry = "" then none
          else some (⟨pkg, ty, entry⟩, priv)

/-- The continuation of ResourceUtils::parseReference after the at sign and
the optional create marker have been consumed: parse the remaining name, then
reject the create marker combined with the private marker and the create
marker on any type other than id. -/
def parseReferenceKernel (create : Bool) (cs : List Char) :
    Option (ResourceName × Bool × Bool) :=
  match parseResourceName ⟨cs⟩ with
  | none => none
  | some (name, priv) =>
    if create ∧ priv then none
    else if create ∧ name.type ≠ ResourceType.kId then none
    else some (name, create, priv)

/-- Embeds ResourceUtils::parseReference (src/unnamed/part_004:127-171): an
at-reference with an optional create marker plus and private marker star; the
create marker is rejected together with the private marker and rejected for
any type other than id.  Returns (name, create, private). -/
def parseReference (str : String) : Option (ResourceName × Bool × Bool) :=
  match (trimWhitespace str).data with
  | '@' :: rest =>
    match rest with
    | '+' :: cs => parseReferenceKernel true cs
    | cs => parseReferenceKernel false cs
  | _ => none

/-- Embeds ResourceUtils::parseAttributeReference (src/unnamed/part_004:
177-208): a question-mark reference whose type, when given, must be attr. -/
def parseAttributeReference (str : String) : Option ResourceName :=
  match (trimWhitespace str).data with
  | '?' :: rest =>
    match extractResourceName ⟨rest⟩ with
    | none => none
    | some (pkg, typ, entry) =>
      if typ ≠ "" ∧ typ ≠ "attr" then none
      else if entry = "" then none
      else some ⟨pkg, ResourceType.kAttr, entry⟩
  | _ => none

/-- Embeds ResourceUtils::tryParseReference (src/unnamed/part_004:300-316):
first a resource reference (carrying its create flag), then an attribute
reference (whose create flag is always false). -/
def tryParseReference (str : String) : Option (Reference × Bool) :=
  match parseReference str with
  | some (name, create, priv) => some (⟨name, priv, RefKind.kResource⟩, create)
  | none =>
    match parseAttributeReference str with
    | some name => some (⟨name, false, RefKind.kAttribute⟩, false)
    | none => none

/-! ## ResourceUtils: the typed-value pipeline (src/unnamed/part_004:537-630) -/

/-- Embeds ResourceUtils::androidTypeToAttributeTypeMask: maps a Res_value
dataType tag to the accepted-type mask bits it satisfies. -/
def androidTypeToAttributeTypeMask (t : Nat) : Nat :=
  if t = ResValue.TYPE_NULL ∨ t = ResValue.TYPE_REFERENCE ∨
      t = ResValue.TYPE_ATTRIBUTE ∨ t = ResValue.TYPE_DYNAMIC_REFERENCE then
    ResTableMap.TYPE_REFERENCE
  else if t = ResValue.TYPE_STRING then ResTableMap.TYPE_STRING
  else if t = ResValue.TYPE_FLOAT then ResTableMap.TYPE_FLOAT
  else if t = ResValue.TYPE_DIMENSION then ResTableMap.TYPE_DIMENSION
  else if t = ResValue.TYPE_FRACTION then ResTableMap.TYPE_FRACTION
  else if t = ResValue.TYPE_INT_DEC ∨ t = ResValue.TYPE_INT_HEX then
    ResTableMap.TYPE_INTEGER ||| ResTableMap.TYPE_ENUM ||| ResTableMap.TYPE_FLAGS
  else if t = ResValue.TYPE_INT_BOOLEAN then ResTableMap.TYPE_BOOLEAN
  else if t = ResValue.TYPE_INT_COLOR_ARGB8 ∨ t = ResValue.TYPE_INT_COLOR_RGB8 ∨
      t = ResValue.TYPE_INT_COLOR_ARGB4 ∨ t = ResValue.TYPE_INT_COLOR_RGB4 then
    ResTableMap.TYPE_COLOR
  else 0

/-- Embeds the mask-level ResourceUtils::tryParseItemForAttribute: the fixed
priority order is null/empty sentinel, reference, color, boolean, integer and
float, the last four gated by the accepted-type mask.  The platform numeric
parsers android::ResTable::stringToInt and stringToFloat live in the external
androidfw library and are passed in as parameters; a parsed float is kept only
when its concrete data type is still within the mask.  The create-reference
callback of the source only pre-registers an Id placeholder and does not
affect the returned item, so it is not modelled. -/
def tryParseItemForAttribute (s2i s2f : String → Option BinPrim)
    (value : String) (typeMask : Nat) : Option Item :=
  match tryParseNullOrEmpty value with
  | some p => some (.prim p)
  | none =>
  match tryParseReference value with
  | some (r, _create) => some (.ref r)
  | none =>
  match (if typeMask &&& ResTableMap.TYPE_COLOR ≠ 0 then tryParseColor value else none) with
  | some p => some (.prim p)
  | none =>
  match (if typeMask &&& ResTableMap.TYPE_BOOLEAN ≠ 0 then tryParseBool value else none) with
  | some p => some (.prim p)
  | none =>
  match (if typeMask &&& ResTableMap.TYPE_INTEGER ≠ 0 then s2i value else none) with
  | some p => some (.prim p)
  | none =>
  match (if typeMask &&& (ResTableMap.TYPE_FLOAT ||| ResTableMap.TYPE_DIMENSION |||
          ResTableMap.TYPE_FRACTION) ≠ 0 then s2f value else none) with
  | some p =>
    if typeMask &&& androidTypeToAttributeTypeMask p.dataType ≠ 0 then some (.prim p)
    else none
  | none => none

/-! ## ResourceParser: accepted-type masks of item elements
(src/unnamed/part_001:40-52 and 305-456) -/

/-- Embeds the static parseFormatType of ResourceParser.cpp: a single format
token maps to its mask bit, anything else to 0. -/
def parseFormatType (piece : String) : Nat :=
  if piece = "reference" then ResTableMap.TYPE_REFERENCE
  else if piece = "string" then ResTableMap.TYPE_STRING
  else if piece = "integer" then ResTableMap.TYPE_INTEGER
  else if piece = "boolean" then ResTableMap.TYPE_BOOLEAN
  else if piece = "color" then ResTableMap.TYPE_COLOR
  else if piece = "float" then ResTableMap.TYPE_FLOAT
  else if piece = "dimension" then ResTableMap.TYPE_DIMENSION
  else if piece = "fraction" then ResTableMap.TYPE_FRACTION
  else if piece = "enum" then ResTableMap.TYPE_ENUM
  else if piece = "flags" then ResTableMap.TYPE_FLAGS
  else 0

/-- Embeds the elToItemMap table of ResourceParser::parseResource: the typed
shorthand item elements together with their resource kind and implicit
accepted-type mask. -/
def elToItemMap (el : String) : Option (ResourceType × Nat) :=
  if el = "bool" then some (.kBool, ResTableMap.TYPE_BOOLEAN)
  else if el = "color" then some (.kColor, ResTableMap.TYPE_COLOR)
  else if el = "dimen" then
    some (.kDimen, ResTableMap.TYPE_FLOAT ||| ResTableMap.TYPE_FRACTION |||
      ResTableMap.TYPE_DIMENSION)
  else if el = "drawable" then some (.kDrawable, ResTableMap.TYPE_COLOR)
  else if el = "fraction" then
    some (.kFraction, ResTableMap.TYPE_FLOAT ||| ResTableMap.TYPE_FRACTION |||
      ResTableMap.TYPE_DIMENSION)
  else if el = "integer" then some (.kInteger, ResTableMap.TYPE_INTEGER)
  else if el = "string" then some (.kString, ResTableMap.TYPE_STRING)
  else none

/-- Embeds the accepted-type mask computation of ResourceParser::parseResource
for item-typed elements (src/unnamed/part_001:342-408).  An item element reads
its resource type from the type attribute and, when a format attribute is
present, replaces the accepted mask by the parsed single format token (an
unparseable token is an error); a typed shorthand element uses its element
name as the type and never reads the format attribute.  The implicit mask of
the map is used only when no explicit format was parsed.  Returns the resource
kind and the accepted-type mask, or none when this element is not handled by
the item branch or its attributes are invalid. -/
def itemElementFormat (elementName : String) (typeAttr formatAttr : Option String) :
    Option (ResourceType × Nat) :=
  match (if elementName = "item" then typeAttr else some elementName),
        (if elementName = "item" then formatAttr else none) with
  | none, _ => none
  | some rty, fmtAttr =>
    match (match fmtAttr with
           | some f => some (parseFormatType f)
           | none => none : Option Nat) with
    | some 0 => none
    | some rfmt =>
      match elToItemMap rty with
      | none => none
      | some (ty, _implicitFmt) => some (ty, rfmt)
    | none =>
      match elToItemMap rty with
      | none => none
      | some (ty, implicitFmt) => some (ty, implicitFmt)

/-! ## XmlActionExecutor (src/unnamed/part_000:17-112) -/

/-- The execution policy of the XML action executor.  The header
xml/XmlActionExecutor.h is not among the sources; the policy values are
modelled from the code, which only distinguishes the strict whitelist policy
from the permissive default. -/
inductive XmlPolicy where
  | kNone
  | kWhitelist
  deriving DecidableEq, Repr

/-- An XML element: namespace, local name, line number and child elements
(GetChildElements of the XML DOM). -/
inductive XmlElement where
  | mk (namespaceUri : String) (name : String) (lineNumber : Nat)
      (children : List XmlElement)

/-- Namespace accessor of an element. -/
def XmlElement.namespaceUri : XmlElement → String
  | .mk ns _ _ _ => ns

/-- Local-name accessor of an element. -/
def XmlElement.name : XmlElement → String
  | .mk _ n _ _ => n

/-- Children accessor of an element. -/
def XmlElement.children : XmlElement → List XmlElement
  | .mk _ _ _ cs => cs

/-- A node of the tag-dispatch tree: the registered actions for the element
and the map from child element names to child nodes, mirroring
xml::XmlNodeAction.  An action takes the element and returns success;
diagnostics emitted by user actions are outside the executor and are not
counted. -/
inductive XmlNodeAction where
  | mk (actions : List (XmlElement → Bool)) (childMap : List (String × XmlNodeAction))

/-- Actions accessor of a dispatch node. -/
def XmlNodeAction.actions : XmlNodeAction → List (XmlElement → Bool)
  | .mk a _ => a

/-- Child-map accessor of a dispatch node. -/
def XmlNodeAction.childMap : XmlNodeAction → List (String × XmlNodeAction)
  | .mk _ m => m

/-- The map lookup of XmlNodeAction::Execute. -/
def lookupNode (m : List (String × XmlNodeAction)) (n : String) : Option XmlNodeAction :=
  match m.find? (fun e => e.1 = n) with
  | some e => some e.2
  | none => none

/-- Embeds xml::XmlNodeAction::Execute: runs every registered action on the
element, recurses into known (non-namespaced) child elements, and under the
whitelist policy reports an unknown-element error for every other child.
Returns (success, number of executor errors reported to diagnostics). -/
def nodeExecute (policy : XmlPolicy) (node : XmlNodeAction) (el : XmlElement) :
    Bool × Nat :=
  let actionError := node.actions.foldl (fun e f => e || !(f el)) false
  let childResults := el.children.attach.map (fun c =>
    if c.1.namespaceUri = "" then
      match lookupNode node.childMap c.1.name with
      | some childNode =>
        match nodeExecute policy childNode c.1 with
        | (ok, d) => (!ok, d)
      | none => if policy = .kWhitelist then (true, 1) else (false, 0)
    else if policy = .kWhitelist then (true, 1) else (false, 0))
  (!(actionError || childResults.any (fun r => r.1)),
    (childResults.map (fun r => r.2)).sum)
termination_by sizeOf el
decreasing_by
  have h1 : sizeOf c.1 < sizeOf el.children := List.sizeOf_lt_of_mem c.2
  cases el with
  | mk ns nm line children =>
    simp only [XmlElement.children] at h1
    simp only [XmlElement.mk.sizeOf_spec]
    omega

/-- Embeds xml::XmlActionExecutor::Execute: with no root element the whitelist
policy reports a no-root-XML-tag error and fails while any other policy
succeeds silently; with a root element the root is dispatched through the
action map, unknown roots being an error only under the whitelist policy.
Returns (success, number of executor errors reported to diagnostics). -/
def executorExecute (policy : XmlPolicy) (m : List (String × XmlNodeAction))
    (root : Option XmlElement) : Bool × Nat :=
  match root with
  | none => if policy = .kWhitelist then (false, 1) else (true, 0)
  | some el =>
    if el.namespaceUri = "" then
      match lookupNode m el.name with
      | some node => nodeExecute policy node el
      | none => if policy = .kWhitelist then (false, 1) else (true, 0)
    else if policy = .kWhitelist then (false, 1) else (true, 0)

/-! ## ResourceTable symbol states

The header src/unnamed/part_003 declares ResourceTable::setSymbolState but
ResourceTable.cpp is not among the provided sources, so the operation is
modelled from the spec. -/

/-- The visibility of a resource symbol, as declared in the ResourceTable
header (src/unnamed/part_003:163-167). -/
inductive SymbolState where
  | kUndefined
  | kPublic
  | kPrivate
  deriving DecidableEq, Repr

/-- The table of entry symbol states, keyed by resource name. -/
abbrev SymbolTable := List (ResourceName × SymbolState)

/-- Looks up the symbol state recorded for a name (exact-key lookup). -/
def findSymbol : SymbolTable → ResourceName → Option SymbolState
  | [], _ => none
  | e :: t, n => if e.1 = n then some e.2 else findSymbol t n

/-- Modelled from the spec: ResourceTable::setSymbolState (ResourceTable.cpp
is not among the provided sources).  Per section 4.1 the call creates the
entry if absent and fails if the requested state would downgrade a Public
symbol; per section 3 Public visibility is monotonic and must never regress.
Returns the success flag and the updated table; on failure the table is left
as it was. -/
def setSymbolState (t : SymbolTable) (name : ResourceName) (state : SymbolState) :
    Bool × SymbolTable :=
  match findSymbol t name with
  | none => (true, t ++ [(name, state)])
  | some cur =>
    if cur = SymbolState.kPublic ∧ state ≠ SymbolState.kPublic then (false, t)
    else (true, List.map (fun e => if e.1 = name then (name, state) else e) t)

/-- Applies a sequence of setSymbolState calls, keeping the table of each
step whether or not the call succeeded. -/
def applySymbolCalls (t : SymbolTable) (calls : List (ResourceName × SymbolState)) :
    SymbolTable :=
  calls.foldl (fun acc c => (setSymbolState acc c.1 c.2).2) t

/-! ## TableMerger

link/TableMerger.cpp is not among the provided sources (only its tests under
src/link/TableMerger_test.cpp are), so the overlay and mangled merge
operations are modelled from the spec, sections 4.5, 6, 7 and 8. -/

/-- A (name, configuration) key of a resource value; configurations are kept
as their qualifier strings. -/
abbrev ResourceKey := ResourceName × String

/-- A merged table: one value handle per (name, configuration) key. -/
abbrev MergeTable := List ((ResourceName × String) × Nat)

/-- Whether a name is present in a table under any configuration. -/
def tableHasName (t : MergeTable) (n : ResourceName) : Bool :=
  t.any (fun e => e.1.1 = n)

/-- Inserts or replaces the value recorded for a (name, configuration) key. -/
def setTableValue (t : MergeTable) (k : ResourceName × String) (v : Nat) : MergeTable :=
  if t.any (fun e => e.1 = k) then
    t.map (fun e => if e.1 = k then (k, v) else e)
  else t ++ [(k, v)]

/-- Modelled from the spec: TableMerger::mergeOverlay (link/TableMerger.cpp is
not among the provided sources).  Per section 4.5 an incoming value for an
existing (name, config) unconditionally replaces the old one, while a name not
already present may be introduced only when autoAddOverlay is set and is a
hard error otherwise; per section 8 a failing overlay merge leaves the
destination unchanged.  Returns the success flag and the resulting table. -/
def mergeOverlay (autoAddOverlay : Bool) (dst overlay : MergeTable) :
    Bool × MergeTable :=
  if ¬autoAddOverlay ∧ overlay.any (fun e => !tableHasName dst e.1.1) then
    (false, dst)
  else
    (true, overlay.foldl (fun acc e => setTableValue acc e.1 e.2) dst)

/-- The state of the table merger: the destination table plus the set of
package names already merged under mangling. -/
structure MergerState where
  table : MergeTable
  mergedPackages : List String

/-- Modelled from the spec: NameMangler::mangleEntry (NameMangler.h is not
among the provided sources).  Per section 6 the mangled name format is the
original package, the exact separator dollar sign, then the entry name. -/
def mangleEntry (pkg entry : String) : String :=
  pkg ++ "$" ++ entry

/-- Modelled from the spec: TableMerger::mergeAndMangle (link/TableMerger.cpp
is not among the provided sources).  Per section 4.5 every resource of the
foreign package is renamed to originalPackage-dollar-entryName and inserted
under the destination package, and the foreign package is recorded as
merged. -/
def mergeAndMangle (dstPkg srcPkg : String) (src : MergeTable) (st : MergerState) :
    MergerState :=
  { table := src.foldl (fun acc e =>
      setTableValue acc (⟨dstPkg, e.1.1.type, mangleEntry srcPkg e.1.1.entry⟩, e.1.2) e.2)
      st.table,
    mergedPackages := st.mergedPackages ++ [srcPkg] }

/-! ## Helper lemmas -/

/-- parseHex succeeds exactly on hexadecimal digits. -/
theorem parseHex_isSome_iff (c : Char) : (parseHex c).isSome = isHexDigitChar c := by
  unfold parseHex isHexDigitChar
  split
  · rename_i h; simp [h]
  · split
    · rename_i h1 h2; simp_all
    · split
      · rename_i h1 h2 h3; simp_all
      · rename_i h1 h2 h3; simp_all

/-- An Option bind chain of three draws succeeds exactly when every draw
succeeds. -/
theorem option_chain3 (x1 x2 x3 : Option Nat) (k : Nat → Nat → Nat → BinPrim) :
    (do
      let a ← x1
      let b ← x2
      let c ← x3
      some (k a b c)).isSome = (x1.isSome && x2.isSome && x3.isSome) := by
  cases x1 <;> cases x2 <;> cases x3 <;> rfl

/-- An Option bind chain of four draws succeeds exactly when every draw
succeeds. -/
theorem option_chain4 (x1 x2 x3 x4 : Option Nat) (k : Nat → Nat → Nat → Nat → BinPrim) :
    (do
      let a ← x1
      let b ← x2
      let c ← x3
      let d ← x4
      some (k a b c d)).isSome = (x1.isSome && x2.isSome && x3.isSome && x4.isSome) := by
  cases x1 <;> cases x2 <;> cases x3 <;> cases x4 <;> rfl

/-- An Option bind chain of six draws succeeds exactly when every draw
succeeds. -/
theorem option_chain6 (x1 x2 x3 x4 x5 x6 : Option Nat)
    (k : Nat → Nat → Nat → Nat → Nat → Nat → BinPrim) :
    (do
      let a ← x1
      let b ← x2
      let c ← x3
      let d ← x4
      let e ← x5
      let f ← x6
      some (k a b c d e f)).isSome =
      (x1.isSome && x2.isSome && x3.isSome && x4.isSome && x5.isSome && x6.isSome) := by
  cases x1 <;> cases x2 <;> cases x3 <;> cases x4 <;> cases x5 <;> cases x6 <;> rfl

/-- An Option bind chain of eight draws succeeds exactly when every draw
succeeds. -/
theorem option_chain8 (x1 x2 x3 x4 x5 x6 x7 x8 : Option Nat)
    (k : Nat → Nat → Nat → Nat → Nat → Nat → Nat → Nat → BinPrim) :
    (do
      let a ← x1
      let b ← x2
      let c ← x3
      let d ← x4
      let e ← x5
      let f ← x6
      let g ← x7
      let h ← x8
      some (k a b c d e f g h)).isSome =
      (x1.isSome && x2.isSome && x3.isSome && x4.isSome && x5.isSome && x6.isSome &&
        x7.isSome && x8.isSome) := by
  cases x1 <;> cases x2 <;> cases x3 <;> cases x4 <;> cases x5 <;> cases x6 <;> cases x7 <;>
    cases x8 <;> rfl

/-- colorFromDigits succeeds exactly on 3, 4, 6 or 8 hexadecimal digits. -/
theorem colorFromDigits_isSome_iff (ds : List Char) :
    (colorFromDigits ds).isSome = true ↔
      ((ds.length = 3 ∨ ds.length = 4 ∨ ds.length = 6 ∨ ds.length = 8) ∧
        ∀ c ∈ ds, isHexDigitChar c = true) := by
  rcases ds with _ | ⟨a, _ | ⟨b, _ | ⟨c, _ | ⟨d, _ | ⟨e, _ | ⟨f, _ | ⟨g, _ | ⟨h8, _ | ⟨i, rest⟩⟩⟩⟩⟩⟩⟩⟩⟩
  · simp [colorFromDigits]
  · simp [colorFromDigits]
  · simp [colorFromDigits]
  · simp only [colorFromDigits, option_chain3]
    simp [← parseHex_isSome_iff, and_assoc]
  · simp only [colorFromDigits, option_chain4]
    simp [← parseHex_isSome_iff, and_assoc]
  · simp [colorFromDigits]
  · simp only [colorFromDigits, option_chain6]
    simp [← parseHex_isSome_iff, and_assoc]
  · simp [colorFromDigits]
  · simp only [colorFromDigits, option_chain8]
    simp [← parseHex_isSome_iff, and_assoc]
  · have hnone : colorFromDigits (a :: b :: c :: d :: e :: f :: g :: h8 :: i :: rest) = none := rfl
    rw [hnone]
    constructor
    · intro h; exact absurd h (by simp)
    · rintro ⟨h1, -⟩
      exfalso
      simp only [List.length_cons] at h1
      omega

/-! ## Claim theorems -/

/-- Claim C10: tryParseNullOrEmpty encodes the two sentinels with distinct
data types: the trimmed token at-null yields TYPE_REFERENCE with data 0 (not
TYPE_NULL), the trimmed token at-empty yields TYPE_NULL with DATA_NULL_EMPTY,
and every other input yields no value. -/
theorem tryParseNullOrEmpty_distinct_sentinels :
    (∀ s : String, trimWhitespace s = "@null" →
      tryParseNullOrEmpty s = some ⟨ResValue.TYPE_REFERENCE, 0⟩) ∧
    (∀ s : String, trimWhitespace s = "@empty" →
      tryParseNullOrEmpty s = some ⟨ResValue.TYPE_NULL, ResValue.DATA_NULL_EMPTY⟩) ∧
    (∀ s : String, trimWhitespace s ≠ "@null" → trimWhitespace s ≠ "@empty" →
      tryParseNullOrEmpty s = none) ∧
    ResValue.TYPE_REFERENCE ≠ ResValue.TYPE_NULL := by
  refine ⟨?_, ?_, ?_, by decide⟩
  · intro s h; unfold tryParseNullOrEmpty; rw [h]; decide
  · intro s h; unfold tryParseNullOrEmpty; rw [h]; decide
  · intro s h1 h2; unfold tryParseNullOrEmpty; rw [if_neg h1, if_neg h2]

/-- Witness for C10 at concrete inputs. -/
theorem tryParseNullOrEmpty_distinct_sentinels_witness :
    tryParseNullOrEmpty " @null " = some ⟨ResValue.TYPE_REFERENCE, 0⟩ ∧
    tryParseNullOrEmpty "@empty" = some ⟨ResValue.TYPE_NULL, ResValue.DATA_NULL_EMPTY⟩ ∧
    tryParseNullOrEmpty "@nothing" = none :=
  ⟨tryParseNullOrEmpty_distinct_sentinels.1 " @null " (by decide),
   tryParseNullOrEmpty_distinct_sentinels.2.1 "@empty" (by decide),
   tryParseNullOrEmpty_distinct_sentinels.2.2.1 "@nothing" (by decide) (by decide)⟩

/-- Claim C8: XmlActionExecutor::Execute on a document with no root element
fails and reports an error exactly under the whitelist policy; under the
other policy it succeeds without reporting an error. -/
theorem executorExecute_no_root_whitelist_only :
    ∀ (policy : XmlPolicy) (m : List (String × XmlNodeAction)),
      ((executorExecute policy m none).1 = false ↔ policy = XmlPolicy.kWhitelist) ∧
      ((executorExecute policy m none).2 = 0 ↔ policy ≠ XmlPolicy.kWhitelist) := by
  intro policy m
  cases policy <;> simp [executorExecute]

/-- Claim C4 counterexample: tryParseColor trims whitespace before parsing,
so it also accepts inputs that are not hash-prefixed strings of hex digits,
such as one with a leading space. -/
theorem tryParseColor_accepts_leading_whitespace :
    tryParseColor " #abc" = some ⟨ResValue.TYPE_INT_COLOR_RGB4, 0xffaabbcc⟩ ∧
    " #abc".data.head? = some ' ' ∧ ' ' ≠ '#' := by
  exact ⟨by decide, by decide, by decide⟩

/-- Claim C4 (amended): after trimming leading and trailing whitespace,
tryParseColor accepts exactly the hash-prefixed strings of 3, 4, 6 or 8 hex
digits, with the digit-replication ARGB values of the four spec examples and
default alpha 0xff when omitted; any other trimmed input yields no value. -/
theorem tryParseColor_trimmed_characterization :
    tryParseColor "#abc" = some ⟨ResValue.TYPE_INT_COLOR_RGB4, 0xffaabbcc⟩ ∧
    tryParseColor "#1abc" = some ⟨ResValue.TYPE_INT_COLOR_ARGB4, 0x11aabbcc⟩ ∧
    tryParseColor "#112233" = some ⟨ResValue.TYPE_INT_COLOR_RGB8, 0xff112233⟩ ∧
    tryParseColor "#11223344" = some ⟨ResValue.TYPE_INT_COLOR_ARGB8, 0x11223344⟩ ∧
    ∀ s : String, (tryParseColor s).isSome = true ↔
      ∃ ds : List Char, (trimWhitespace s).data = '#' :: ds ∧
        (ds.length = 3 ∨ ds.length = 4 ∨ ds.length = 6 ∨ ds.length = 8) ∧
        ∀ c ∈ ds, isHexDigitChar c = true := by
  refine ⟨by decide, by decide, by decide, by decide, ?_⟩
  intro s
  unfold tryParseColor
  rcases hdata : (trimWhitespace s).data with _ | ⟨c, ds⟩
  · simp
  · by_cases hc : c = '#'
    · subst hc
      simpa using colorFromDigits_isSome_iff ds
    · simp [hc, Ne.symm hc]

/-- A token that matches no symbol fails the whole flag loop. -/
theorem flagLoop_eq_none (symbols : List AttrSymbol) (toks : List String) (acc : Nat)
    (h : ∃ t ∈ toks, findFlagValue symbols (trimWhitespace t) = none) :
    flagLoop symbols toks acc = none := by
  induction toks generalizing acc with
  | nil => rcases h with ⟨t, ht, _⟩; exact absurd ht (by simp)
  | cons p ps ih =>
    rcases h with ⟨t, ht, hv⟩
    rcases List.mem_cons.mp ht with rfl | hmem
    · unfold flagLoop; rw [hv]
    · unfold flagLoop
      cases hfv : findFlagValue symbols (trimWhitespace p)
      · rfl
      · exact ih _ ⟨t, hmem, hv⟩

/-- When every token matches a symbol, the flag loop returns the bitwise or
of the matched values, folded onto the accumulator. -/
theorem flagLoop_eq_some (symbols : List AttrSymbol) (toks : List String)
    (h : ∀ t ∈ toks, (findFlagValue symbols (trimWhitespace t)).isSome = true) :
    ∀ acc, flagLoop symbols toks acc =
      some (toks.foldl
        (fun a t => a ||| (findFlagValue symbols (trimWhitespace t)).getD 0) acc) := by
  induction toks with
  | nil => intro acc; rfl
  | cons p ps ih =>
    intro acc
    have hp := h p (by simp)
    rcases hfv : findFlagValue symbols (trimWhitespace p) with _ | v
    · rw [hfv] at hp; simp at hp
    · unfold flagLoop
      rw [hfv]
      show flagLoop symbols ps (acc ||| v) = _
      rw [ih (fun t ht => h t (by simp [ht])) (acc ||| v)]
      simp [hfv]

/-- Claim C5: tryParseFlagSymbol returns the bitwise or of the values of the
pipe-separated tokens when every trimmed token matches the entry part of some
symbol (with symbols A=0x1 and B=0x2 the text A-pipe-B yields 0x3), returns 0
for an empty or all-whitespace input, and returns no value when some token
matches no symbol. -/
theorem tryParseFlagSymbol_or_of_matched_tokens :
    (∀ (symbols : List AttrSymbol) (str : String), trimWhitespace str = "" →
      tryParseFlagSymbol symbols str = some ⟨ResValue.TYPE_INT_HEX, 0⟩) ∧
    (∀ (symbols : List AttrSymbol) (str : String), trimWhitespace str ≠ "" →
      (∃ t ∈ tokenize str '|', findFlagValue symbols (trimWhitespace t) = none) →
      tryParseFlagSymbol symbols str = none) ∧
    (∀ (symbols : List AttrSymbol) (str : String), trimWhitespace str ≠ "" →
      (∀ t ∈ tokenize str '|', (findFlagValue symbols (trimWhitespace t)).isSome = true) →
      tryParseFlagSymbol symbols str =
        some ⟨ResValue.TYPE_INT_HEX,
          (tokenize str '|').foldl
            (fun a t => a ||| (findFlagValue symbols (trimWhitespace t)).getD 0) 0⟩) ∧
    tryParseFlagSymbol [⟨⟨"", ResourceType.kId, "A"⟩, 0x1⟩, ⟨⟨"", ResourceType.kId, "B"⟩, 0x2⟩]
      "A|B" = some ⟨ResValue.TYPE_INT_HEX, 0x3⟩ := by
  refine ⟨?_, ?_, ?_, by decide⟩
  · intro symbols str h
    unfold tryParseFlagSymbol
    rw [if_pos h]
  · intro symbols str h hex
    unfold tryParseFlagSymbol
    rw [if_neg h, flagLoop_eq_none _ _ _ hex]
  · intro symbols str h hall
    unfold tryParseFlagSymbol
    rw [if_neg h, flagLoop_eq_some _ _ hall 0]

/-- Witness for C5 at concrete inputs. -/
theorem tryParseFlagSymbol_or_of_matched_tokens_witness :
    tryParseFlagSymbol [] "  " = some ⟨ResValue.TYPE_INT_HEX, 0⟩ ∧
    tryParseFlagSymbol [⟨⟨"", ResourceType.kId, "A"⟩, 0x1⟩] "A|C" = none ∧
    tryParseFlagSymbol [⟨⟨"", ResourceType.kId, "A"⟩, 0x1⟩] " A " =
      some ⟨ResValue.TYPE_INT_HEX, 0x1⟩ :=
  ⟨tryParseFlagSymbol_or_of_matched_tokens.1 [] "  " (by decide),
   tryParseFlagSymbol_or_of_matched_tokens.2.1 [⟨⟨"", ResourceType.kId, "A"⟩, 0x1⟩] "A|C"
     (by decide) ⟨"C", by decide, by decide⟩,
   by
    have h := tryParseFlagSymbol_or_of_matched_tokens.2.2.1 [⟨⟨"", ResourceType.kId, "A"⟩, 0x1⟩]
      " A " (by decide) (by decide)
    rw [h]
    decide⟩

/-- parseBool returns true exactly on the three spellings of true. -/
theorem parseBool_eq_true_iff (s : String) :
    parseBool s = some true ↔
      (trimWhitespace s = "true" ∨ trimWhitespace s = "TRUE" ∨ trimWhitespace s = "True") := by
  unfold parseBool
  split
  · rename_i h; exact iff_of_true rfl h
  · split
    · rename_i h1 h2; exact iff_of_false (by simp) h1
    · rename_i h1 h2; exact iff_of_false (by simp) h1

/-- parseBool returns false exactly on the three spellings of false. -/
theorem parseBool_eq_false_iff (s : String) :
    parseBool s = some false ↔
      (trimWhitespace s = "false" ∨ trimWhitespace s = "FALSE" ∨ trimWhitespace s = "False") := by
  unfold parseBool
  split
  · rename_i h
    refine iff_of_false (by simp) ?_
    rcases h with h | h | h <;> rw [h] <;> decide
  · split
    · rename_i h1 h2; exact iff_of_true rfl h2
    · rename_i h1 h2; exact iff_of_false (by simp) h2

/-- When the accepted-type mask allows boolean, any input recognised by
parseBool passes the earlier pipeline stages unharmed and yields the boolean
binary primitive. -/
theorem tryParseItemForAttribute_bool (s2i s2f : String → Option BinPrim)
    (typeMask : Nat) (s : String) (b : Bool)
    (hmask : typeMask &&& ResTableMap.TYPE_BOOLEAN ≠ 0) (hb : parseBool s = some b) :
    tryParseItemForAttribute s2i s2f s typeMask =
      some (.prim ⟨ResValue.TYPE_INT_BOOLEAN, if b then 0xffffffff else 0⟩) := by
  have h6 : trimWhitespace s = "true" ∨ trimWhitespace s = "TRUE" ∨
      trimWhitespace s = "True" ∨ trimWhitespace s = "false" ∨
      trimWhitespace s = "FALSE" ∨ trimWhitespace s = "False" := by
    cases b
    · have := (parseBool_eq_false_iff s).mp hb; tauto
    · have := (parseBool_eq_true_iff s).mp hb; tauto
  have hbo : tryParseBool s = some ⟨ResValue.TYPE_INT_BOOLEAN, if b then 0xffffffff else 0⟩ := by
    unfold tryParseBool
    rw [hb]
    cases b <;> rfl
  have hne : tryParseNullOrEmpty s = none := by
    unfold tryParseNullOrEmpty
    rcases h6 with h | h | h | h | h | h <;> rw [h] <;> decide
  have hre : tryParseReference s = none := by
    unfold tryParseReference parseReference parseAttributeReference
    rcases h6 with h | h | h | h | h | h <;> rw [h] <;> decide
  have hco : tryParseColor s = none := by
    unfold tryParseColor
    rcases h6 with h | h | h | h | h | h <;> rw [h] <;> decide
  unfold tryParseItemForAttribute
  rw [hne, hre]
  rw [hco, ite_self]
  rw [hbo, if_pos hmask]

/-- Claim C6 counterexample: parseItemForAttribute does not recognise every
case variant of true and false; the mixed-case variant tRue is rejected even
when the mask allows boolean. -/
theorem parseBool_mixed_case_rejected :
    "tRue".data.map Char.toLower = "true".data ∧ parseBool "tRue" = none ∧
    tryParseItemForAttribute (fun _ => none) (fun _ => none) "tRue"
      ResTableMap.TYPE_BOOLEAN = none := by
  exact ⟨by decide, by decide, by decide⟩

/-- Claim C6 (amended): when the accepted-type mask allows boolean,
parseItemForAttribute recognises exactly the spellings true, TRUE, True and
false, FALSE, False (after whitespace trimming), producing a BinaryPrimitive
with type tag boolean whose data word is all ones for true and all zeros for
false. -/
theorem tryParseBool_exact_spellings :
    (∀ s : String, parseBool s = some true ↔
      (trimWhitespace s = "true" ∨ trimWhitespace s = "TRUE" ∨ trimWhitespace s = "True")) ∧
    (∀ s : String, parseBool s = some false ↔
      (trimWhitespace s = "false" ∨ trimWhitespace s = "FALSE" ∨ trimWhitespace s = "False")) ∧
    (∀ (s2i s2f : String → Option BinPrim) (typeMask : Nat) (s : String) (b : Bool),
      typeMask &&& ResTableMap.TYPE_BOOLEAN ≠ 0 → parseBool s = some b →
      tryParseItemForAttribute s2i s2f s typeMask =
        some (.prim ⟨ResValue.TYPE_INT_BOOLEAN, if b then 0xffffffff else 0⟩)) :=
  ⟨parseBool_eq_true_iff, parseBool_eq_false_iff,
   fun s2i s2f typeMask s b hmask hb => tryParseItemForAttribute_bool s2i s2f typeMask s b hmask hb⟩

/-- Witness for C6 (amended) at concrete inputs. -/
theorem tryParseBool_exact_spellings_witness :
    tryParseItemForAttribute (fun _ => none) (fun _ => none) " True "
      ResTableMap.TYPE_BOOLEAN = some (.prim ⟨ResValue.TYPE_INT_BOOLEAN, 0xffffffff⟩) ∧
    tryParseItemForAttribute (fun _ => none) (fun _ => none) "FALSE"
      (ResTableMap.TYPE_BOOLEAN ||| ResTableMap.TYPE_COLOR) =
      some (.prim ⟨ResValue.TYPE_INT_BOOLEAN, 0⟩) := by
  constructor
  · have h := tryParseBool_exact_spellings.2.2 (fun _ => none) (fun _ => none)
      ResTableMap.TYPE_BOOLEAN " True " true (by decide) (by decide)
    simpa using h
  · have h := tryParseBool_exact_spellings.2.2 (fun _ => none) (fun _ => none)
      (ResTableMap.TYPE_BOOLEAN ||| ResTableMap.TYPE_COLOR) "FALSE" false (by decide) (by decide)
    simpa using h

/-- Claim C7 counterexample: a format attribute on an item element does not
merely narrow the implicit accepted-type mask.  An item of type bool carries
the implicit mask boolean, yet with format color the resulting mask is color,
and the color literal is accepted under the resulting mask while it is not
accepted under the implicit mask. -/
theorem itemElementFormat_override_widens :
    itemElementFormat "item" (some "bool") none =
      some (ResourceType.kBool, ResTableMap.TYPE_BOOLEAN) ∧
    itemElementFormat "item" (some "bool") (some "color") =
      some (ResourceType.kBool, ResTableMap.TYPE_COLOR) ∧
    (tryParseItemForAttribute (fun _ => none) (fun _ => none) "#aabbcc"
      ResTableMap.TYPE_COLOR).isSome = true ∧
    tryParseItemForAttribute (fun _ => none) (fun _ => none) "#aabbcc"
      ResTableMap.TYPE_BOOLEAN = none := by
  exact ⟨by decide, by decide, by decide, by decide⟩

/-- Claim C7 (amended): on an item element a valid format attribute replaces
the implicit accepted-type mask with the single parsed format token, whatever
the implicit mask was; on a typed shorthand element the format attribute is
ignored and the implicit mask is used, as it is on an item element without a
format attribute. -/
theorem itemElementFormat_replaces_implicit_mask :
    (∀ (t f : String) (ty : ResourceType) (imp : Nat),
      elToItemMap t = some (ty, imp) → parseFormatType f ≠ 0 →
      itemElementFormat "item" (some t) (some f) = some (ty, parseFormatType f)) ∧
    (∀ (el f : String) (ty : ResourceType) (imp : Nat), el ≠ "item" →
      elToItemMap el = some (ty, imp) →
      itemElementFormat el none (some f) = some (ty, imp)) ∧
    (∀ (t : String) (ty : ResourceType) (imp : Nat),
      elToItemMap t = some (ty, imp) →
      itemElementFormat "item" (some t) none = some (ty, imp)) := by
  refine ⟨?_, ?_, ?_⟩
  · intro t f ty imp hmap hf
    unfold itemElementFormat
    rcases hpf : parseFormatType f with _ | n
    · exact absurd hpf hf
    · simp [hmap, hpf]
  · intro el f ty imp hel hmap
    unfold itemElementFormat
    simp [hel, hmap]
  · intro t ty imp hmap
    unfold itemElementFormat
    simp [hmap]

/-- Witness for C7 (amended) at concrete inputs. -/
theorem itemElementFormat_replaces_implicit_mask_witness :
    itemElementFormat "item" (some "string") (some "integer") =
      some (ResourceType.kString, parseFormatType "integer") ∧
    itemElementFormat "dimen" none (some "color") =
      some (ResourceType.kDimen,
        ResTableMap.TYPE_FLOAT ||| ResTableMap.TYPE_FRACTION ||| ResTableMap.TYPE_DIMENSION) ∧
    itemElementFormat "item" (some "integer") none =
      some (ResourceType.kInteger, ResTableMap.TYPE_INTEGER) :=
  ⟨itemElementFormat_replaces_implicit_mask.1 "string" "integer" ResourceType.kString
      ResTableMap.TYPE_STRING (by decide) (by decide),
   itemElementFormat_replaces_implicit_mask.2.1 "dimen" "color" ResourceType.kDimen
      (ResTableMap.TYPE_FLOAT ||| ResTableMap.TYPE_FRACTION ||| ResTableMap.TYPE_DIMENSION)
      (by decide) (by decide),
   itemElementFormat_replaces_implicit_mask.2.2 "integer" ResourceType.kInteger
      ResTableMap.TYPE_INTEGER (by decide)⟩

/-- Inversion for the parseReference continuation: a successful parse with
the create marker can only be an id-typed, non-private reference. -/
theorem parseReferenceKernel_create (cs : List Char) (name : ResourceName)
    (create priv : Bool)
    (h : parseReferenceKernel true cs = some (name, create, priv)) :
    name.type = ResourceType.kId ∧ priv = false ∧ create = true := by
  unfold parseReferenceKernel at h
  split at h
  · exact absurd h (by simp)
  · split at h
    · exact absurd h (by simp)
    · split at h
      · exact absurd h (by simp)
      · rename_i h1 h2
        simp only [Option.some.injEq, Prod.mk.injEq] at h
        obtain ⟨rfl, rfl, rfl⟩ := h
        refine ⟨?_, ?_, rfl⟩
        · by_contra hty
          exact h2 ⟨rfl, hty⟩
        · by_contra hpr
          exact h1 ⟨rfl, by simpa using hpr⟩

/-- Inversion for the parseReference continuation without the create marker:
the reported create flag is false. -/
theorem parseReferenceKernel_no_create (cs : List Char) (name : ResourceName)
    (create priv : Bool)
    (h : parseReferenceKernel false cs = some (name, create, priv)) :
    create = false := by
  unfold parseReferenceKernel at h
  split at h
  · exact absurd h (by simp)
  · split at h
    · exact absurd h (by simp)
    · split at h
      · exact absurd h (by simp)
      · simp only [Option.some.injEq, Prod.mk.injEq] at h
        obtain ⟨-, rfl, -⟩ := h
        rfl

/-- The parseReference continuation fails on a parsed name whose type is not
id or which carries the private marker. -/
theorem parseReferenceKernel_none_of_bad (cs : List Char) (name : ResourceName)
    (priv : Bool) (hpn : parseResourceName ⟨cs⟩ = some (name, priv))
    (hbad : name.type ≠ ResourceType.kId ∨ priv = true) :
    parseReferenceKernel true cs = none := by
  unfold parseReferenceKernel
  simp only [hpn]
  rcases hbad with hty | hpriv
  · cases priv
    · simp [hty]
    · simp
  · subst hpriv
    simp

/-- Inversion for parseReference: a successful parse carrying the create
marker can only be an id-typed, non-private reference. -/
theorem parseReference_some_create (s : String) (name : ResourceName) (priv : Bool)
    (h : parseReference s = some (name, true, priv)) :
    name.type = ResourceType.kId ∧ priv = false := by
  unfold parseReference at h
  split at h
  · split at h
    · have h3 := parseReferenceKernel_create _ _ _ _ h
      exact ⟨h3.1, h3.2.1⟩
    · have h3 := parseReferenceKernel_no_create _ _ _ _ h
      exact absurd h3 (by simp)
  · exact absurd h (by simp)

/-- Claim C9: parseReference accepts the create marker plus only on id-typed
references: an input beginning with at-plus fails to parse when the named
resource type is not id or when plus is combined with the private marker
star, and tryParseReference never reports create for a non-id reference. -/
theorem parseReference_create_requires_id_type :
    (∀ (s : String) (rest : List Char) (name : ResourceName) (priv : Bool),
      (trimWhitespace s).data = '@' :: '+' :: rest →
      parseResourceName ⟨rest⟩ = some (name, priv) →
      (name.type ≠ ResourceType.kId ∨ priv = true) →
      parseReference s = none) ∧
    (∀ (s : String) (name : ResourceName) (create priv : Bool),
      parseReference s = some (name, create, priv) → create = true →
      name.type = ResourceType.kId ∧ priv = false) ∧
    (∀ (s : String) (r : Reference) (create : Bool),
      tryParseReference s = some (r, create) → create = true →
      r.name.type = ResourceType.kId) := by
  refine ⟨?_, ?_, ?_⟩
  · intro s rest name priv hdata hpn hbad
    unfold parseReference
    simp only [hdata]
    exact parseReferenceKernel_none_of_bad rest name priv hpn hbad
  · intro s name create priv h hc
    subst hc
    exact parseReference_some_create s name priv h
  · intro s r create h hc
    subst hc
    unfold tryParseReference at h
    split at h
    · rename_i name create' priv heq
      simp only [Option.some.injEq, Prod.mk.injEq] at h
      obtain ⟨rfl, rfl⟩ := h
      exact (parseReference_some_create s name priv heq).1
    · split at h
      · simp at h
      · exact absurd h (by simp)

/-- Witness for C9 at concrete inputs. -/
theorem parseReference_create_requires_id_type_witness :
    parseReference "@+string/foo" = none ∧ parseReference "@+*id/foo" = none :=
  ⟨parseReference_create_requires_id_type.1 "@+string/foo" "string/foo".data
      ⟨"", ResourceType.kString, "foo"⟩ false (by decide) (by decide) (Or.inl (by decide)),
   parseReference_create_requires_id_type.1 "@+*id/foo" "*id/foo".data
      ⟨"", ResourceType.kId, "foo"⟩ true (by decide) (by decide) (Or.inr rfl)⟩

/-- Appending a new binding does not disturb an existing lookup. -/
theorem findSymbol_append_of_some (t : SymbolTable) (m n : ResourceName)
    (sv s : SymbolState) (h : findSymbol t m = some sv) :
    findSymbol (t ++ [(n, s)]) m = some sv := by
  induction t with
  | nil => simp [findSymbol] at h
  | cons e t ih =>
    by_cases he : e.1 = m
    · simp only [findSymbol, he, if_pos rfl] at h
      simpa [findSymbol, he] using h
    · simp only [findSymbol, he, if_neg he] at h
      simpa [findSymbol, he] using ih h

/-- Appending a binding for an absent name makes it found. -/
theorem findSymbol_append_of_none (t : SymbolTable) (n : ResourceName)
    (s : SymbolState) (h : findSymbol t n = none) :
    findSymbol (t ++ [(n, s)]) n = some s := by
  induction t with
  | nil => simp [findSymbol]
  | cons e t ih =>
    by_cases he : e.1 = n
    · simp [findSymbol, he] at h
    · simp only [findSymbol, he, if_neg he] at h
      simpa [findSymbol, he] using ih h

/-- Updating the bindings of one name does not disturb lookups of another. -/
theorem findSymbol_update_of_ne (t : SymbolTable) (m n : ResourceName)
    (s : SymbolState) (hmn : m ≠ n) :
    findSymbol (t.map (fun e => if e.1 = n then (n, s) else e)) m = findSymbol t m := by
  induction t with
  | nil => rfl
  | cons e t ih =>
    by_cases he : e.1 = n
    · have h1 : ¬(n : ResourceName) = m := fun hh => hmn hh.symm
      have h2 : ¬e.1 = m := by rw [he]; exact h1
      simp [findSymbol, he, h1, h2, ih]
    · by_cases hem : e.1 = m
      · simp [findSymbol, he, hem, hmn]
      · simp [findSymbol, he, hem, ih]

/-- Updating the bindings of a present name makes its lookup return the new
state. -/
theorem findSymbol_update_self (t : SymbolTable) (n : ResourceName)
    (sv s : SymbolState) (h : findSymbol t n = some sv) :
    findSymbol (t.map (fun e => if e.1 = n then (n, s) else e)) n = some s := by
  induction t with
  | nil => simp [findSymbol] at h
  | cons e t ih =>
    by_cases he : e.1 = n
    · simp [findSymbol, he]
    · simp only [findSymbol, he, if_neg he] at h
      simpa [findSymbol, he] using ih h

/-- Setting a name Public always succeeds and leaves the name Public. -/
theorem setSymbolState_public_result (t : SymbolTable) (n : ResourceName) :
    (setSymbolState t n SymbolState.kPublic).1 = true ∧
    findSymbol (setSymbolState t n SymbolState.kPublic).2 n = some SymbolState.kPublic := by
  unfold setSymbolState
  rcases hf : findSymbol t n with _ | cur <;> simp only [hf]
  · exact ⟨by trivial, findSymbol_append_of_none t n _ hf⟩
  · rw [if_neg (by simp)]
    exact ⟨by trivial, findSymbol_update_self t n cur _ hf⟩

/-- A setSymbolState call requesting a lower state on a Public name fails and
leaves the name Public. -/
theorem setSymbolState_fails_on_public (t : SymbolTable) (n : ResourceName)
    (s : SymbolState) (h : findSymbol t n = some SymbolState.kPublic)
    (hs : s ≠ SymbolState.kPublic) :
    (setSymbolState t n s).1 = false ∧
    findSymbol (setSymbolState t n s).2 n = some SymbolState.kPublic := by
  unfold setSymbolState
  simp only [h]
  rw [if_pos ⟨by trivial, hs⟩]
  exact ⟨by trivial, h⟩

/-- No setSymbolState call can make a Public name lose its Public state. -/
theorem setSymbolState_preserves_public (t : SymbolTable) (n m : ResourceName)
    (s : SymbolState) (h : findSymbol t n = some SymbolState.kPublic) :
    findSymbol (setSymbolState t m s).2 n = some SymbolState.kPublic := by
  unfold setSymbolState
  rcases hf : findSymbol t m with _ | cur <;> simp only [hf]
  · by_cases hnm : n = m
    · subst hnm; rw [h] at hf; cases hf
    · exact findSymbol_append_of_some t n m _ s h
  · by_cases hcond : cur = SymbolState.kPublic ∧ s ≠ SymbolState.kPublic
    · rw [if_pos hcond]
      exact h
    · rw [if_neg hcond]
      by_cases hnm : n = m
      · subst hnm
        rw [h] at hf
        injection hf with hf
        have hs : s = SymbolState.kPublic := by
          by_contra hs2
          exact hcond ⟨hf.symm, hs2⟩
        subst hs
        exact findSymbol_update_self t n _ _ h
      · rw [findSymbol_update_of_ne t n m s hnm]
        exact h

/-- A Public name stays Public across any sequence of setSymbolState calls. -/
theorem applySymbolCalls_preserves_public (calls : List (ResourceName × SymbolState))
    (t : SymbolTable) (n : ResourceName)
    (h : findSymbol t n = some SymbolState.kPublic) :
    findSymbol (applySymbolCalls t calls) n = some SymbolState.kPublic := by
  induction calls generalizing t with
  | nil => exact h
  | cons c cs ih =>
    exact ih _ (setSymbolState_preserves_public t n c.1 c.2 h)

/-- Claim C1: once an entry has been set Public by a successful
setSymbolState call, every subsequent setSymbolState call on that entry
requesting a lower state (Private or Undefined) fails and leaves the entry
Public, whatever other calls happened in between. -/
theorem setSymbolState_public_never_downgraded :
    ∀ (t : SymbolTable) (name : ResourceName)
      (calls : List (ResourceName × SymbolState)) (s : SymbolState),
      s ≠ SymbolState.kPublic →
      (setSymbolState t name SymbolState.kPublic).1 = true ∧
      (setSymbolState
        (applySymbolCalls (setSymbolState t name SymbolState.kPublic).2 calls)
        name s).1 = false ∧
      findSymbol
        (setSymbolState
          (applySymbolCalls (setSymbolState t name SymbolState.kPublic).2 calls)
          name s).2 name = some SymbolState.kPublic := by
  intro t name calls s hs
  obtain ⟨hok, hpub⟩ := setSymbolState_public_result t name
  have hpub2 := applySymbolCalls_preserves_public calls _ name hpub
  obtain ⟨hfail, hstill⟩ := setSymbolState_fails_on_public _ name s hpub2 hs
  exact ⟨hok, hfail, hstill⟩

/-- Witness for C1 at a concrete table, entry and call sequence. -/
theorem setSymbolState_public_never_downgraded_witness :
    (setSymbolState [] ⟨"com.app.a", ResourceType.kBool, "foo"⟩ SymbolState.kPublic).1 = true ∧
    (setSymbolState
      (applySymbolCalls
        (setSymbolState [] ⟨"com.app.a", ResourceType.kBool, "foo"⟩ SymbolState.kPublic).2
        [(⟨"com.app.a", ResourceType.kBool, "foo"⟩, SymbolState.kPrivate),
         (⟨"com.app.a", ResourceType.kString, "bar"⟩, SymbolState.kUndefined)])
      ⟨"com.app.a", ResourceType.kBool, "foo"⟩ SymbolState.kPrivate).1 = false ∧
    findSymbol
      (setSymbolState
        (applySymbolCalls
          (setSymbolState [] ⟨"com.app.a", ResourceType.kBool, "foo"⟩ SymbolState.kPublic).2
          [(⟨"com.app.a", ResourceType.kBool, "foo"⟩, SymbolState.kPrivate),
           (⟨"com.app.a", ResourceType.kString, "bar"⟩, SymbolState.kUndefined)])
        ⟨"com.app.a", ResourceType.kBool, "foo"⟩ SymbolState.kPrivate).2
      ⟨"com.app.a", ResourceType.kBool, "foo"⟩ = some SymbolState.kPublic :=
  setSymbolState_public_never_downgraded [] ⟨"com.app.a", ResourceType.kBool, "foo"⟩
    [(⟨"com.app.a", ResourceType.kBool, "foo"⟩, SymbolState.kPrivate),
     (⟨"com.app.a", ResourceType.kString, "bar"⟩, SymbolState.kUndefined)]
    SymbolState.kPrivate (by decide)

/-- Name presence as an existential over the table entries. -/
theorem tableHasName_iff (t : MergeTable) (n : ResourceName) :
    tableHasName t n = true ↔ ∃ e ∈ t, e.1.1 = n := by
  simp [tableHasName, List.any_eq_true]

/-- A table contains a name exactly when some entry carries it; therefore it
misses a name when no entry carries it. -/
theorem tableHasName_eq_false (t : MergeTable) (n : ResourceName)
    (h : ∀ e ∈ t, ¬e.1.1 = n) : tableHasName t n = false := by
  simp only [tableHasName, List.any_eq_false]
  intro e he
  simpa using h e he

/-- Every entry of an upserted table is the new binding or an old entry. -/
theorem mem_setTableValue (t : MergeTable) (k : ResourceName × String) (v : Nat)
    (e : (ResourceName × String) × Nat) (h : e ∈ setTableValue t k v) :
    e = (k, v) ∨ e ∈ t := by
  unfold setTableValue at h
  split at h
  · rcases List.mem_map.mp h with ⟨x, hx, hxe⟩
    by_cases hk : x.1 = k
    · rw [if_pos hk] at hxe
      left; exact hxe.symm
    · rw [if_neg hk] at hxe
      right; exact hxe ▸ hx
  · rcases List.mem_append.mp h with h | h
    · right; exact h
    · left; simpa using h

/-- An upsert leaves its own key present. -/
theorem hasName_setTableValue_self (t : MergeTable) (k : ResourceName × String) (v : Nat) :
    tableHasName (setTableValue t k v) k.1 = true := by
  rw [tableHasName_iff]
  unfold setTableValue
  split
  · rename_i hany
    rcases List.any_eq_true.mp hany with ⟨e, he, hek⟩
    refine ⟨(k, v), List.mem_map.mpr ⟨e, he, ?_⟩, rfl⟩
    rw [if_pos (by simpa using hek)]
  · exact ⟨(k, v), List.mem_append.mpr (Or.inr (by simp)), rfl⟩

/-- An upsert preserves the presence of every name. -/
theorem hasName_setTableValue_mono (t : MergeTable) (k : ResourceName × String)
    (v : Nat) (n : ResourceName) (h : tableHasName t n = true) :
    tableHasName (setTableValue t k v) n = true := by
  rw [tableHasName_iff] at h ⊢
  rcases h with ⟨e, he, hen⟩
  unfold setTableValue
  split
  · by_cases hek : e.1 = k
    · refine ⟨(k, v), List.mem_map.mpr ⟨e, he, by rw [if_pos hek]⟩, ?_⟩
      rw [← hek]
      exact hen
    · exact ⟨e, List.mem_map.mpr ⟨e, he, by rw [if_neg hek]⟩, hen⟩
  · exact ⟨e, List.mem_append.mpr (Or.inl he), hen⟩

/-- Folding upserts over a list preserves the presence of every name. -/
theorem hasName_foldl_setTableValue_mono {α : Type}
    (g : α → (ResourceName × String) × Nat) (l : List α) (dst : MergeTable)
    (n : ResourceName) (h : tableHasName dst n = true) :
    tableHasName (l.foldl (fun acc x => setTableValue acc (g x).1 (g x).2) dst) n = true := by
  induction l generalizing dst with
  | nil => exact h
  | cons x xs ih => exact ih _ (hasName_setTableValue_mono _ _ _ _ h)

/-- Folding upserts over a list makes the key of every list element present. -/
theorem hasName_foldl_setTableValue_of_mem {α : Type}
    (g : α → (ResourceName × String) × Nat) (l : List α) (dst : MergeTable)
    (x : α) (hx : x ∈ l) :
    tableHasName (l.foldl (fun acc y => setTableValue acc (g y).1 (g y).2) dst)
      (g x).1.1 = true := by
  induction l generalizing dst with
  | nil => cases hx
  | cons y ys ih =>
    rcases List.mem_cons.mp hx with rfl | hmem
    · exact hasName_foldl_setTableValue_mono g ys _ _ (hasName_setTableValue_self _ _ _)
    · exact ih _ hmem

/-- Every entry of a fold of upserts comes from the start table or carries
the key of some list element. -/
theorem mem_foldl_setTableValue {α : Type}
    (g : α → (ResourceName × String) × Nat) (l : List α) (dst : MergeTable)
    (e : (ResourceName × String) × Nat)
    (h : e ∈ l.foldl (fun acc x => setTableValue acc (g x).1 (g x).2) dst) :
    e ∈ dst ∨ ∃ x ∈ l, e.1 = (g x).1 := by
  induction l generalizing dst with
  | nil => left; exact h
  | cons y ys ih =>
    rcases ih _ h with h1 | ⟨x, hx, hxe⟩
    · rcases mem_setTableValue _ _ _ _ h1 with h2 | h2
      · right
        exact ⟨y, by simp, by rw [h2]⟩
      · left; exact h2
    · right
      exact ⟨x, by simp [hx], hxe⟩

/-- Claim C2: merging an overlay that introduces a name absent from the
destination fails and leaves the destination unchanged when autoAddOverlay is
unset, while the same merge with autoAddOverlay set succeeds and the new
name is present afterwards. -/
theorem mergeOverlay_new_name_requires_auto_add :
    ∀ (dst overlay : MergeTable) (n : ResourceName) (cfg : String) (v : Nat),
      ((n, cfg), v) ∈ overlay → tableHasName dst n = false →
      mergeOverlay false dst overlay = (false, dst) ∧
      (mergeOverlay true dst overlay).1 = true ∧
      tableHasName (mergeOverlay true dst overlay).2 n = true := by
  intro dst overlay n cfg v hmem hnew
  refine ⟨?_, ?_, ?_⟩
  · unfold mergeOverlay
    rw [if_pos]
    refine ⟨by simp, ?_⟩
    rw [List.any_eq_true]
    exact ⟨((n, cfg), v), hmem, by simp [hnew]⟩
  · unfold mergeOverlay
    rw [if_neg (by simp)]
  · unfold mergeOverlay
    rw [if_neg (by simp)]
    exact hasName_foldl_setTableValue_of_mem (fun e => e) overlay dst ((n, cfg), v) hmem

/-- Witness for C2 at a concrete destination and overlay. -/
theorem mergeOverlay_new_name_requires_auto_add_witness :
    mergeOverlay false [((⟨"", ResourceType.kBool, "bar"⟩, ""), 7)]
      [((⟨"", ResourceType.kBool, "foo"⟩, ""), 1)] =
      (false, [((⟨"", ResourceType.kBool, "bar"⟩, ""), 7)]) ∧
    (mergeOverlay true [((⟨"", ResourceType.kBool, "bar"⟩, ""), 7)]
      [((⟨"", ResourceType.kBool, "foo"⟩, ""), 1)]).1 = true ∧
    tableHasName (mergeOverlay true [((⟨"", ResourceType.kBool, "bar"⟩, ""), 7)]
      [((⟨"", ResourceType.kBool, "foo"⟩, ""), 1)]).2 ⟨"", ResourceType.kBool, "foo"⟩ = true :=
  mergeOverlay_new_name_requires_auto_add
    [((⟨"", ResourceType.kBool, "bar"⟩, ""), 7)]
    [((⟨"", ResourceType.kBool, "foo"⟩, ""), 1)]
    ⟨"", ResourceType.kBool, "foo"⟩ "" 1 (by decide) (by decide)

/-- Claim C3: merging a foreign package table under mangling makes every
entry of the source appear under the destination package with the
dollar-mangled entry name, leaves the unmangled foreign name absent, and
records the foreign package as merged; the mangled name is the original
package, the exact separator dollar, then the entry. -/
theorem mergeAndMangle_renames_and_records :
    ∀ (dstPkg srcPkg : String) (src : MergeTable) (st : MergerState)
      (ty : ResourceType) (entry cfg : String) (v : Nat),
      srcPkg ≠ dstPkg →
      (∀ e ∈ st.table, e.1.1.package = dstPkg) →
      ((⟨srcPkg, ty, entry⟩, cfg), v) ∈ src →
      tableHasName (mergeAndMangle dstPkg srcPkg src st).table
        ⟨dstPkg, ty, mangleEntry srcPkg entry⟩ = true ∧
      tableHasName (mergeAndMangle dstPkg srcPkg src st).table
        ⟨srcPkg, ty, entry⟩ = false ∧
      srcPkg ∈ (mergeAndMangle dstPkg srcPkg src st).mergedPackages ∧
      mangleEntry srcPkg entry = srcPkg ++ "$" ++ entry := by
  intro dstPkg srcPkg src st ty entry cfg v hneq hdst hmem
  refine ⟨?_, ?_, ?_, rfl⟩
  · exact hasName_foldl_setTableValue_of_mem
      (fun (e : (ResourceName × String) × Nat) =>
        ((⟨dstPkg, e.1.1.type, mangleEntry srcPkg e.1.1.entry⟩, e.1.2), e.2))
      src st.table ((⟨srcPkg, ty, entry⟩, cfg), v) hmem
  · apply tableHasName_eq_false
    intro e he hn
    rcases mem_foldl_setTableValue
        (fun (e : (ResourceName × String) × Nat) =>
          ((⟨dstPkg, e.1.1.type, mangleEntry srcPkg e.1.1.entry⟩, e.1.2), e.2))
        src st.table e he with h1 | ⟨x, hx, hxe⟩
    · have hp := hdst e h1
      rw [hn] at hp
      exact hneq hp
    · have hp : e.1.1.package = dstPkg := by rw [hxe]
      rw [hn] at hp
      exact hneq hp
  · simp [mergeAndMangle]

/-- Witness for C3 at a concrete destination state and source table. -/
theorem mergeAndMangle_renames_and_records_witness :
    tableHasName (mergeAndMangle "com.app.a" "com.app.b"
      [((⟨"com.app.b", ResourceType.kId, "foo"⟩, ""), 1)]
      ⟨[((⟨"com.app.a", ResourceType.kId, "bar"⟩, ""), 2)], []⟩).table
      ⟨"com.app.a", ResourceType.kId, mangleEntry "com.app.b" "foo"⟩ = true ∧
    tableHasName (mergeAndMangle "com.app.a" "com.app.b"
      [((⟨"com.app.b", ResourceType.kId, "foo"⟩, ""), 1)]
      ⟨[((⟨"com.app.a", ResourceType.kId, "bar"⟩, ""), 2)], []⟩).table
      ⟨"com.app.b", ResourceType.kId, "foo"⟩ = false ∧
    "com.app.b" ∈ (mergeAndMangle "com.app.a" "com.app.b"
      [((⟨"com.app.b", ResourceType.kId, "foo"⟩, ""), 1)]
      ⟨[((⟨"com.app.a", ResourceType.kId, "bar"⟩, ""), 2)], []⟩).mergedPackages ∧
    mangleEntry "com.app.b" "foo" = "com.app.b" ++ "$" ++ "foo" :=
  mergeAndMangle_renames_and_records "com.app.a" "com.app.b"
    [((⟨"com.app.b", ResourceType.kId, "foo"⟩, ""), 1)]
    ⟨[((⟨"com.app.a", ResourceType.kId, "bar"⟩, ""), 2)], []⟩
    ResourceType.kId "foo" "" 1 (by decide) (by decide) (by decide)

end Aapt
